import Mathlib

/-!
Shallow embedding of the deterministic core of `pdf_renamer.py` (the
auto-renamer repository): text normalization, invoice-number sanitization,
date formatting, collector resolution, restaurant-site resolution, the
filename composer, and the persistent rate limiter's ledger transitions.

Similarity ratios (Python `difflib.SequenceMatcher.ratio`) are embedded over
`ℚ` instead of IEEE floats; thresholds (0.7, 0.8, 0.6, 0.5, 0.3) are the
corresponding rationals.  Python's `str.lower`/`str.upper` are modelled on
the ASCII range (identity elsewhere), which is exact for the catalog keys,
aliases and inputs considered here.  Unicode NFKD/NFD de-accenting is
modelled exactly on ASCII (where normalization is the identity) and by an
explicit table for the accented Latin characters that occur in the data.
-/

/-- Decide whether a character is an ASCII alphanumeric, i.e. matched by the
Python character class `[a-zA-Z0-9]` used in `_sanitize_invoice_number`. -/
def isAsciiAlnum (c : Char) : Bool :=
  (97 ≤ c.toNat && c.toNat ≤ 122) || (65 ≤ c.toNat && c.toNat ≤ 90) ||
    (48 ≤ c.toNat && c.toNat ≤ 57)

/-- Decide whether a character is an ASCII decimal digit (`\d` for our inputs). -/
def isDigitChar (c : Char) : Bool := 48 ≤ c.toNat && c.toNat ≤ 57

/-- Whitespace as recognised by Python `str.split` / `str.strip` / `\s`,
restricted to the ASCII whitespace characters that occur in the data. -/
def isPySpace (c : Char) : Bool :=
  c == ' ' || c == '\t' || c == '\n' || c == '\r' || c == '\x0b' || c == '\x0c'

/-- Python regex word character `\w` (`[a-zA-Z0-9_]` plus Unicode letters;
the non-ASCII characters occurring in the catalog data are accented letters,
all of which are word characters). -/
def isWordChar (c : Char) : Bool :=
  isAsciiAlnum c || c == '_' || (128 ≤ c.toNat)

/-- ASCII lower-casing of one character, modelling Python `str.lower` on the
character repertoire in scope. -/
def asciiLowerChar (c : Char) : Char :=
  if 65 ≤ c.toNat && c.toNat ≤ 90 then Char.ofNat (c.toNat + 32) else c

/-- ASCII upper-casing of one character, modelling Python `str.upper` on the
character repertoire in scope. -/
def asciiUpperChar (c : Char) : Char :=
  if 97 ≤ c.toNat && c.toNat ≤ 122 then Char.ofNat (c.toNat - 32) else c

/-- Python `s.lower()` (ASCII model). -/
def pyLower (s : String) : String := String.mk (s.data.map asciiLowerChar)

/-- Python `s.upper()` (ASCII model). -/
def pyUpper (s : String) : String := String.mk (s.data.map asciiUpperChar)

/-- Python `s.strip()`: drop leading and trailing whitespace. -/
def pyStrip (s : String) : String :=
  String.mk (((s.data.dropWhile isPySpace).reverse.dropWhile isPySpace).reverse)

/-- Does the first list occur at the head of the second? -/
def listStartsWith : List Char → List Char → Bool
  | [], _ => true
  | _ :: _, [] => false
  | a :: as, b :: bs => a == b && listStartsWith as bs

/-- Does the first list occur contiguously inside the second? -/
def listInfixOf (needle hay : List Char) : Bool :=
  listStartsWith needle hay ||
    match hay with
    | [] => false
    | _ :: t => listInfixOf needle t

/-- Python substring test `needle in hay`. -/
def containsSub (hay needle : String) : Bool := listInfixOf needle.data hay.data

/-- Unicode NFKD (resp. NFD) normalization followed by removal of combining
marks, per character: the identity on ASCII (which is exact), and an explicit
table for the accented Latin characters occurring in the invoice data. -/
def deaccentChar (c : Char) : List Char :=
  if c.toNat < 128 then [c]
  else if c == 'é' || c == 'è' || c == 'ê' || c == 'ë' then ['e']
  else if c == 'É' || c == 'È' || c == 'Ê' || c == 'Ë' then ['E']
  else if c == 'à' || c == 'â' || c == 'ä' then ['a']
  else if c == 'À' || c == 'Â' then ['A']
  else if c == 'ç' then ['c']
  else if c == 'Ç' then ['C']
  else if c == 'î' || c == 'ï' then ['i']
  else if c == 'ô' || c == 'ö' then ['o']
  else if c == 'û' || c == 'ù' || c == 'ü' then ['u']
  else [c]

/-- De-accent a whole string (the `unicodedata.normalize` + combining-mark
filter used by `_sanitize_invoice_number` and `_normalize_text`). -/
def deaccentStr (s : String) : String := String.mk ((s.data.map deaccentChar).flatten)

/-- Embedding of `PDFRenamer._sanitize_invoice_number`: on a non-empty input,
de-accent (NFKD, dropping combining marks), remove every character outside
`[a-zA-Z0-9]`, then remove backslashes (`.replace('\\', '')`, a no-op after
the filter). An empty input is returned unchanged. -/
def sanitizeInvoiceNumber (s : String) : String :=
  if s = "" then s
  else
    let deaccented := (s.data.map deaccentChar).flatten
    let sanitized := deaccented.filter isAsciiAlnum
    String.mk (sanitized.filter (fun c => !(c == '\\')))

/-- Embedding of `PDFRenamer._normalize_text`: NFD de-accenting followed by
`.lower().strip()`. -/
def normalizeText (s : String) : String := pyStrip (pyLower (deaccentStr s))

/-- Numeric value of a list of ASCII digits. -/
def digitsToNat (l : List Char) : Nat := l.foldl (fun a c => 10 * a + (c.toNat - 48)) 0

/-- Gregorian leap-year test used by Python `datetime` date validation. -/
def isLeapYear (y : Nat) : Bool := y % 4 == 0 && (y % 100 != 0 || y % 400 == 0)

/-- Number of days in a month, per Python `datetime` validation. -/
def daysInMonth (m y : Nat) : Nat :=
  if m = 2 then (if isLeapYear y then 29 else 28)
  else if m = 4 || m = 6 || m = 9 || m = 11 then 30
  else 31

/-- Parse a `%d` field of `strptime`: one or two digits with value 1..31. -/
def parseDayField (s : String) : Option Nat :=
  let l := s.data
  if l.all isDigitChar && (l.length == 1 || l.length == 2) then
    let v := digitsToNat l
    if 1 ≤ v && v ≤ 31 then some v else none
  else none

/-- Parse a `%m` field of `strptime`: one or two digits with value 1..12. -/
def parseMonthField (s : String) : Option Nat :=
  let l := s.data
  if l.all isDigitChar && (l.length == 1 || l.length == 2) then
    let v := digitsToNat l
    if 1 ≤ v && v ≤ 12 then some v else none
  else none

/-- Parse a `%Y` field of `strptime`: exactly four digits. -/
def parseYearField (s : String) : Option Nat :=
  let l := s.data
  if l.all isDigitChar && l.length == 4 then some (digitsToNat l) else none

/-- Embedding of `datetime.strptime(date_str, '%d/%m/%Y')`: the string must be
exactly a day field, `/`, a month field, `/`, a four-digit year, and the
triple must be a valid calendar date with year at least 1 (`datetime.MINYEAR`);
otherwise parsing fails (Python raises `ValueError`). -/
def splitOnCharAux (delim : Char) : List Char → List Char → List String
  | acc, [] => [String.mk acc.reverse]
  | acc, c :: cs =>
    if c == delim then String.mk acc.reverse :: splitOnCharAux delim [] cs
    else splitOnCharAux delim (c :: acc) cs

/-- Split a string at every occurrence of a single delimiter character,
keeping empty fields (like Python `str.split(delim)`). -/
def splitOnChar (delim : Char) (s : String) : List String :=
  splitOnCharAux delim [] s.data

def parseDateDDMMYYYY (s : String) : Option (Nat × Nat × Nat) :=
  match splitOnChar '/' s with
  | [ds, ms, ys] =>
    match parseDayField ds, parseMonthField ms, parseYearField ys with
    | some d, some m, some y =>
      if 1 ≤ y && d ≤ daysInMonth m y then some (d, m, y) else none
    | _, _, _ => none
  | _ => none

/-- Zero-pad a month number to two digits (`strftime('%m')`). -/
def padMonth (n : Nat) : String := if n < 10 then "0" ++ toString n else toString n

/-- Embedding of `PDFRenamer._format_date`: reformat a parsable `DD/MM/YYYY`
date as `strftime('%m%Y')` (with `%Y` unpadded, as on glibc; all years in
scope are four-digit), and return the literal string `"UNKNOWN"` when the
date cannot be parsed. -/
def formatDate (s : String) : String :=
  match parseDateDDMMYYYY s with
  | none => "UNKNOWN"
  | some (_, m, y) => padMonth m ++ toString y

/-- Python `s.split()` with no arguments: split on runs of whitespace,
dropping empty fields. -/
def pySplitWsAux : List Char → List Char → List String
  | acc, [] => if acc.isEmpty then [] else [String.mk acc.reverse]
  | acc, c :: cs =>
    if isPySpace c then
      if acc.isEmpty then pySplitWsAux [] cs
      else String.mk acc.reverse :: pySplitWsAux [] cs
    else pySplitWsAux (c :: acc) cs

def pySplitWs (s : String) : List String := pySplitWsAux [] s.data

/-- Delimiter class of `re.split(r'[\s.-]', provider_upper)` in
`_find_base_collecte_name`. -/
def isProviderDelim (c : Char) : Bool := isPySpace c || c == '.' || c == '-'

/-- Embedding of `re.split(r'[\s.-]', s)`: split at every single delimiter
character, keeping empty fields (the Python `set(...)` built from this list
only ever feeds subset tests and maxima, so duplicates are harmless). -/
def splitProviderDelimsAux : List Char → List Char → List String
  | acc, [] => [String.mk acc.reverse]
  | acc, c :: cs =>
    if isProviderDelim c then String.mk acc.reverse :: splitProviderDelimsAux [] cs
    else splitProviderDelimsAux (c :: acc) cs

def splitProviderDelims (s : String) : List String := splitProviderDelimsAux [] s.data

/-- Exact nonnegative fraction used to embed Python's float similarity scores.
Every score computed by the renamer is a ratio or product/sum of ratios of
naturals, so an unreduced fraction with a positive denominator represents it
exactly; comparisons are Nat cross-multiplications, which the kernel
evaluates. -/
structure Score where
  num : Nat
  den : Nat
  den_pos : 0 < den

/-- The score `0.0`. -/
def scoreZero : Score := ⟨0, 1, Nat.one_pos⟩

/-- The score `1.0`. -/
def scoreOne : Score := ⟨1, 1, Nat.one_pos⟩

/-- Strict comparison of scores (Python `<` on floats). -/
def scoreLt (a b : Score) : Bool := decide (a.num * b.den < b.num * a.den)

/-- Non-strict comparison of scores (Python `<=` on floats). -/
def scoreLe (a b : Score) : Bool := decide (a.num * b.den ≤ b.num * a.den)

/-- Product of scores (Python `*` on floats). -/
def scoreMul (a b : Score) : Score :=
  ⟨a.num * b.num, a.den * b.den, Nat.mul_pos a.den_pos b.den_pos⟩

/-- Sum of scores (Python `+` on floats). -/
def scoreAdd (a b : Score) : Score :=
  ⟨a.num * b.den + b.num * a.den, a.den * b.den, Nat.mul_pos a.den_pos b.den_pos⟩

/-- Value of a score as a rational (used only in proofs). -/
def Score.toRat (a : Score) : ℚ := (a.num : ℚ) / (a.den : ℚ)

/-- The threshold `0.7`. -/
def score07 : Score := ⟨7, 10, by decide⟩

/-- The threshold `0.8`. -/
def score08 : Score := ⟨8, 10, by decide⟩

/-- The threshold `0.6`. -/
def score06 : Score := ⟨6, 10, by decide⟩

/-- The threshold `0.5`. -/
def score05 : Score := ⟨5, 10, by decide⟩

/-- The threshold `0.3`. -/
def score03 : Score := ⟨3, 10, by decide⟩

/-- The "less is more" penalty factor `0.9`. -/
def score09 : Score := ⟨9, 10, by decide⟩

/-- The exact-name-match boost `1.5`. -/
def score15 : Score := ⟨15, 10, by decide⟩

/-- Stable insertion placing `x` after every element of equal or larger key:
building block of a stable descending sort (Python `sorted(..., reverse=True)`
and `list.sort(..., reverse=True)` are stable). -/
def insertDescBy (key : α → Score) (x : α) : List α → List α
  | [] => [x]
  | y :: ys => if scoreLe (key x) (key y) then y :: insertDescBy key x ys else x :: y :: ys

/-- Stable descending sort by a score key. -/
def pySortDescQ (key : α → Score) (l : List α) : List α :=
  l.foldl (fun acc x => insertDescBy key x acc) []

/-- Stable insertion for a descending sort by a natural-number key. -/
def insertDescNatBy (key : α → Nat) (x : α) : List α → List α
  | [] => [x]
  | y :: ys => if key x ≤ key y then y :: insertDescNatBy key x ys else x :: y :: ys

/-- Stable descending sort by a natural-number key (Python
`sorted(..., key=..., reverse=True)`). -/
def pySortDescNat (key : α → Nat) (l : List α) : List α :=
  l.foldl (fun acc x => insertDescNatBy key x acc) []

/-- Stable insertion for an ascending sort by a natural-number key. -/
def insertAscNatBy (key : α → Nat) (x : α) : List α → List α
  | [] => [x]
  | y :: ys => if key y ≤ key x then y :: insertAscNatBy key x ys else x :: y :: ys

/-- Stable ascending sort by a natural-number key (Python
`list.sort(key=...)`). -/
def pySortAscNat (key : α → Nat) (l : List α) : List α :=
  l.foldl (fun acc x => insertAscNatBy key x acc) []

/-- Length of the common run of equal characters of `a` and `b` ending at
positions `i` and `j` and staying inside the window starting at `alo`/`blo`:
the quantity difflib's `find_longest_match` accumulates in `j2len`. The fuel
argument (`i + 1` at top level) only bounds the structural recursion. -/
def runLen (a b : List Char) (alo blo : Nat) : Nat → Nat → Nat → Nat
  | 0, _, _ => 0
  | fuel + 1, i, j =>
    if i < alo || j < blo then 0
    else
      match a[i]?, b[j]? with
      | some x, some y =>
        if x == y then
          1 + (if i == 0 || j == 0 then 0 else runLen a b alo blo fuel (i - 1) (j - 1))
        else 0
      | _, _ => 0

/-- List of naturals `lo, lo+1, ..., hi-1`. -/
def rangeList (lo hi : Nat) : List Nat := (List.range (hi - lo)).map (· + lo)

/-- Embedding of `difflib.SequenceMatcher.find_longest_match` (no junk, no
autojunk — exact for sequences shorter than 200 elements, which covers every
string compared by the renamer): the longest matching block in the window,
ties broken by the smallest position in `a`, then in `b`. -/
def findLongestMatch (a b : List Char) (alo ahi blo bhi : Nat) : Nat × Nat × Nat :=
  (rangeList alo ahi).foldl
    (fun best i =>
      (rangeList blo bhi).foldl
        (fun best j =>
          let k := runLen a b alo blo (i + 1) i j
          if best.2.2 < k then (i + 1 - k, j + 1 - k, k) else best)
        best)
    (alo, blo, 0)

/-- Total size of the matching blocks of `get_matching_blocks`, computed by the
same recursive splitting around each longest match. The fuel only bounds the
recursion depth; `a.length + b.length + 1` always suffices. -/
def matchingSumAux (a b : List Char) : Nat → Nat → Nat → Nat → Nat → Nat
  | 0, _, _, _, _ => 0
  | fuel + 1, alo, ahi, blo, bhi =>
    let m := findLongestMatch a b alo ahi blo bhi
    if m.2.2 == 0 then 0
    else
      m.2.2 + matchingSumAux a b fuel alo m.1 blo m.2.1 +
        matchingSumAux a b fuel (m.1 + m.2.2) ahi (m.2.1 + m.2.2) bhi

def matchingSum (a b : List Char) : Nat :=
  matchingSumAux a b (a.length + b.length + 1) 0 a.length 0 b.length

/-- Embedding of `difflib.SequenceMatcher(None, a, b).ratio()`:
`2·M / (len(a) + len(b))` as an exact fraction, and `1.0` when both strings
are empty. -/
def smRatio (a b : String) : Score :=
  let t := a.data.length + b.data.length
  if h : t = 0 then scoreOne
  else ⟨2 * matchingSum a.data b.data, t, Nat.pos_of_ne_zero h⟩

/-- Does a pattern character match an input character, where `.` is the regex
wildcard (any character except newline) and every other pattern character is a
literal? This covers the patterns of `_normalize_address`, whose only
metacharacter is the `.` in abbreviations like `av.`. -/
def patCharMatches (p c : Char) : Bool := (p == '.' && !(c == '\n')) || p == c

/-- Match a (non-empty) literal-with-wildcard pattern at the head of the
input; on success return the last matched input character and the rest. -/
def matchPatAux : List Char → List Char → Option (Char × List Char)
  | [p], c :: rest => if patCharMatches p c then some (c, rest) else none
  | p :: q :: ps, c :: rest =>
    if patCharMatches p c then matchPatAux (q :: ps) rest else none
  | _, _ => none

/-- Embedding of `re.sub(r'\b' + pat + r'\b', rep, input)` for the simple
patterns of `_normalize_address`: scan left to right, and at each position
where both `\b` boundaries hold and the pattern matches, emit the replacement
and continue after the match (matches are non-overlapping, boundaries are
judged on the original string). The fuel (`input.length` at top level) only
bounds the recursion. -/
def substWBAux (pat rep : List Char) : Nat → Option Char → List Char → List Char
  | 0, _, l => l
  | _ + 1, _, [] => []
  | fuel + 1, prev, c :: cs =>
    let prevWord := match prev with
      | none => false
      | some p => isWordChar p
    if prevWord != isWordChar c then
      match matchPatAux pat (c :: cs) with
      | some (lastc, rest) =>
        let endOk := match rest with
          | [] => isWordChar lastc
          | n :: _ => isWordChar lastc != isWordChar n
        if endOk then rep ++ substWBAux pat rep fuel (some lastc) rest
        else c :: substWBAux pat rep fuel (some c) cs
      | none => c :: substWBAux pat rep fuel (some c) cs
    else c :: substWBAux pat rep fuel (some c) cs

def substWB (pat rep : List Char) (l : List Char) : List Char :=
  substWBAux pat rep l.length none l

/-- The ordered abbreviation table of `_normalize_address` (`address_mappings`
in source order; Python dicts iterate in insertion order). -/
def addressMappings : List (String × String) :=
  [("avenue", "av"), ("av.", "av"), ("boulevard", "bd"), ("bd.", "bd"),
   ("rue", "r"), ("place", "pl"), ("pl.", "pl"), ("saint", "st"),
   ("sainte", "ste"), ("st.", "st"), ("ste.", "ste")]

/-- Replace each maximal run of whitespace by a single space
(`re.sub(r'\s+', ' ', address)`). -/
def collapseWs (l : List Char) : List Char :=
  l.foldr
    (fun c acc =>
      if isPySpace c then
        match acc with
        | ' ' :: _ => acc
        | _ => ' ' :: acc
      else c :: acc)
    []

/-- Embedding of `PDFRenamer._normalize_address`: lower-case and strip, apply
the French street-type abbreviations as word-bounded substitutions in table
order, remove the characters outside `[\w\s]`, collapse whitespace and strip. -/
def normalizeAddress (a : String) : String :=
  if a = "" then ""
  else
    let s0 := pyStrip (pyLower a)
    let s1 := addressMappings.foldl (fun s p => substWB p.1.data p.2.data s) s0.data
    let s2 := s1.filter (fun c => isWordChar c || isPySpace c)
    pyStrip (String.mk (collapseWs s2))

/-- Embedding of `PDFRenamer._calculate_address_similarity`: similarity ratio
of the normalized addresses, or `0.0` when either normalizes to empty. -/
def calcAddressSimilarity (a1 a2 : String) : Score :=
  let n1 := normalizeAddress a1
  let n2 := normalizeAddress a2
  if n1 = "" || n2 = "" then scoreZero else smRatio n1 n2

/-- Embedding of `PDFRenamer._calculate_name_similarity`: `0.0` if either raw
name is empty, otherwise the similarity ratio of the lower-cased, stripped
names. -/
def calcNameSimilarity (n1 n2 : String) : Score :=
  if n1 = "" || n2 = "" then scoreZero
  else smRatio (pyStrip (pyLower n1)) (pyStrip (pyLower n2))

/-- Lower-case and remove the characters outside `[\w\s]`
(`re.sub(r'[^\w\s]', '', name.lower())` in `_is_similar_restaurant_name`). -/
def cleanNameStr (s : String) : String :=
  String.mk ((pyLower s).data.filter (fun c => isWordChar c || isPySpace c))

/-- Match the brand regex `(mcdonald[s]?|mac\s*do)` at the head of the input,
returning the rest after the match: first alternative `mcdonald` with an
optional greedy `s`, then `mac`, any run of whitespace, `do`. -/
def matchBrandAt (l : List Char) : Option (List Char) :=
  if listStartsWith "mcdonald".data l then
    let rest := l.drop 8
    match rest with
    | 's' :: rest2 => some rest2
    | _ => some rest
  else if listStartsWith "mac".data l then
    let rest2 := (l.drop 3).dropWhile isPySpace
    if listStartsWith "do".data rest2 then some (rest2.drop 2) else none
  else none

/-- Embedding of `re.sub(r'(mcdonald[s]?|mac\s*do)', '', s)`: delete every
non-overlapping, leftmost-first occurrence of the brand pattern. The fuel
(`input.length` at top level) only bounds the recursion. -/
def removeBrandAux : Nat → List Char → List Char
  | 0, l => l
  | _ + 1, [] => []
  | fuel + 1, c :: cs =>
    match matchBrandAt (c :: cs) with
    | some rest => removeBrandAux fuel rest
    | none => c :: removeBrandAux fuel cs

def removeBrand (l : List Char) : List Char := removeBrandAux l.length l

/-- Embedding of `PDFRenamer._is_similar_restaurant_name`: clean both names;
if both contain a McDonalds brand marker, strip the brand tokens and compare
the remaining locations by mutual substring containment or a shared
whitespace-token of length above 2; otherwise (including when only one side
has a brand marker) compare the cleaned names by equality or substring
containment in either direction. -/
def isSimilarRestaurantName (name1 name2 : String) : Bool :=
  let n1 := cleanNameStr name1
  let n2 := cleanNameStr name2
  if containsSub n1 "mcdonald" || containsSub n1 "mac do" then
    if containsSub n2 "mcdonald" || containsSub n2 "mac do" then
      let l1 := pyStrip (String.mk (removeBrand n1.data))
      let l2 := pyStrip (String.mk (removeBrand n2.data))
      containsSub l2 l1 || containsSub l1 l2 ||
        (pySplitWs l1).any (fun w => 2 < w.length && (pySplitWs l2).contains w)
    else n1 == n2 || containsSub n2 n1 || containsSub n1 n2
  else n1 == n2 || containsSub n2 n1 || containsSub n1 n2

/-- Embedding of `PDFRenamer._extract_postal_code`: the first word-bounded run
of exactly five digits (`re.search(r'\b(\d{5})\b', address)`), or none. -/
def extractPostalCodeAux : Option Char → List Char → Option String
  | _, [] => none
  | prev, c :: cs =>
    let prevWord := match prev with
      | none => false
      | some p => isWordChar p
    let five := (c :: cs).take 5
    let after := (c :: cs).drop 5
    let afterOk := match after with
      | [] => true
      | n :: _ => !(isWordChar n)
    if !prevWord && five.length == 5 && five.all isDigitChar && afterOk then
      some (String.mk five)
    else extractPostalCodeAux (some c) cs

def extractPostalCode (address : String) : Option String :=
  if address = "" then none else extractPostalCodeAux none address.data

/-- One row of the site directory (`Liste des clients.xlsx` as loaded by
`_load_restaurants_data`): `Site`, `Nom`, `Adresse`, `CP`. -/
structure SiteRecord where
  site : String
  nom : String
  adresse : String
  cp : String
deriving DecidableEq, Repr

/-- The immutable reference catalogs: the site directory and the ordered list
of canonical collector keys (`prestataires_data.keys()`, which is also the
valid-collector set loaded from the same CSV). -/
structure Catalog where
  restaurants : List SiteRecord
  collecteKeys : List String
deriving DecidableEq, Repr

/-- The fold pattern `best = None; best_score = 0.0; for x: if score(x) >
best_score: best, best_score = x, score(x)` used throughout
`_find_restaurant_site`. -/
def bestBy (score : α → Score) (l : List α) : Option α × Score :=
  l.foldl
    (fun b x =>
      let s := score x
      if scoreLt b.2 s then (some x, s) else b)
    (none, scoreZero)

/-- Return `(site, nom)` when the record's site number is non-empty (the
`if site_number:` guards before every successful return). -/
def siteReturn (r : SiteRecord) : Option (String × String) :=
  if r.site = "" then none else some (r.site, r.nom)

/-- Embedding of `PDFRenamer._find_postal_code_matches`: every record sharing
the exact postal code, scored 1.0 if some whitespace token of the query name
occurs in the record name, else 0.8 if some token of the record name occurs in
the query name, else 0.0; sorted stably by score (best first) when a query
name was given. -/
def findPostalCodeMatches (cat : Catalog) (pc : String) (restaurantName : String) :
    List (SiteRecord × Score) :=
  if pc = "" then []
  else
    let raw := cat.restaurants.filterMap fun r =>
      if r.cp == pc then
        let nsim :=
          if restaurantName ≠ "" then
            let rclean := pyLower r.nom
            if (pySplitWs (pyLower restaurantName)).any (fun part => containsSub rclean part) then
              scoreOne
            else if (pySplitWs rclean).any
                (fun part => containsSub (pyLower restaurantName) part) then
              score08
            else scoreZero
          else scoreZero
        some (r, nsim)
      else none
    if restaurantName ≠ "" then pySortDescQ (fun x => x.2) raw else raw

/-- Embedding of `PDFRenamer._find_address_matches` (threshold 0.7): records
passing the name-similarity test whose address similarity reaches 0.7; if none
and more than one record passes the name test alone, the same-name records at
address similarity 0.5; sorted stably by address similarity, best first. -/
def findAddressMatches (cat : Catalog) (restaurantName address : String) :
    List (SiteRecord × Score) :=
  let pass1 := cat.restaurants.filterMap fun r =>
    if isSimilarRestaurantName (pyLower restaurantName) (pyLower r.nom) then
      let s := calcAddressSimilarity address r.adresse
      if scoreLe score07 s then some (r, s) else none
    else none
  let ms :=
    match pass1 with
    | _ :: _ => pass1
    | [] =>
      let nm := cat.restaurants.filter fun r =>
        isSimilarRestaurantName (pyLower restaurantName) (pyLower r.nom)
      if 1 < nm.length then
        nm.filterMap fun r =>
          let s := calcAddressSimilarity address r.adresse
          if scoreLe score05 s then some (r, s) else none
      else []
  pySortDescQ (fun x => x.2) ms

/-- Step 1 of `_find_restaurant_site`: the records whose name passes the
brand-aware similarity test against the lower-cased, stripped company name, or
whose normalized catalog address contains a keyword (length above 3) of the
brand-stripped company name. Empty when the company name is empty or
whitespace. -/
def nameMatches (cat : Catalog) (entreprise : String) : List SiteRecord :=
  let normalizedName := if entreprise = "" then "" else pyStrip (pyLower entreprise)
  if normalizedName = "" then []
  else
    let keywordsStr := normalizeText (pyStrip (String.mk (removeBrand normalizedName.data)))
    let keywords := pySplitWs keywordsStr
    cat.restaurants.filter fun r =>
      isSimilarRestaurantName normalizedName (pyLower r.nom) ||
        keywords.any fun kw =>
          3 < kw.length && containsSub (normalizeText (pyLower r.adresse)) kw

/-- Address-only fallback of `_find_restaurant_site` (taken when there are no
name matches and an address is present): the best `_find_address_matches`
result, if its site number is non-empty. -/
def addressFallbackStep (cat : Catalog) (entreprise address : String) :
    Option (String × String) :=
  match findAddressMatches cat (if entreprise = "" then "Unknown" else entreprise) address with
  | [] => none
  | m :: _ => siteReturn m.1

/-- Postal-code fallback of `_find_restaurant_site` (taken when there are
still no matches): the best `_find_postal_code_matches` result for the postal
code extracted from the address, if its site number is non-empty. -/
def postalFallbackStep (cat : Catalog) (entreprise address : String) :
    Option (String × String) :=
  match extractPostalCode address with
  | none => none
  | some pc =>
    match findPostalCodeMatches cat pc entreprise with
    | [] => none
    | m :: _ => siteReturn m.1

/-- Address disambiguation of `_find_restaurant_site` for multiple name
matches (lines 998-1105): pick the name match of highest address similarity;
accept it above 0.6, subject to postal-code validation (a mismatch is
overridden only above 0.8); when that fails, fall back to a global postal-code
search, resolved by the combined score `0.7·name + 0.3·address` (with the
"less is more" penalty and the exact-match boost) at threshold 0.5. -/
def disambiguationStep (cat : Catalog) (entreprise address : String)
    (ms : List SiteRecord) : Option (String × String) :=
  let best := bestBy (fun r => calcAddressSimilarity address r.adresse) ms
  let attempt : Option (String × String) :=
    match best.1 with
    | none => none
    | some m =>
      if scoreLt score06 best.2 then
        match extractPostalCode address with
        | some pc =>
          if m.cp ≠ "" then
            if m.cp ≠ pc then
              if scoreLt score08 best.2 then siteReturn m else none
            else siteReturn m
          else siteReturn m
        | none => siteReturn m
      else none
  match attempt with
  | some res => some res
  | none =>
    match extractPostalCode address with
    | none => none
    | some pc =>
      match findPostalCodeMatches cat pc entreprise with
      | [] => none
      | [m] => siteReturn m.1
      | pms =>
        let bestc := bestBy
          (fun (mi : SiteRecord × Score) =>
            let r := mi.1
            let asim := calcAddressSimilarity address r.adresse
            let nsim0 := calcNameSimilarity entreprise r.nom
            let nsim1 :=
              if entreprise.length < r.nom.length &&
                  containsSub (pyLower r.nom) (pyLower entreprise) then
                scoreMul nsim0 score09
              else nsim0
            let nsim2 := if pyLower r.nom == pyLower entreprise then score15 else nsim1
            scoreAdd (scoreMul nsim2 score07) (scoreMul asim score03))
          pms
        match bestc.1 with
        | some m => if scoreLe score05 bestc.2 then siteReturn m.1 else none
        | none => none

/-- Final block of `_find_restaurant_site` (lines 1108-1200). With an
extractable postal code: prefer name matches sharing it (resolved by name
similarity), else all catalog records sharing it (resolved by name similarity
above 0.3); in the latter inner loop Python would raise on an empty best, \
which cannot return a result either, so it is modelled as a failure. Without
a postal code: the unvalidated fallback — the name matches sorted stably by
ascending name length, returning the first with a non-empty site number. -/
def finalBlockStep (cat : Catalog) (normalizedName address : String)
    (ms : List SiteRecord) : Option (String × String) :=
  let pcOpt := if address ≠ "" then extractPostalCode address else none
  match pcOpt with
  | some pc =>
    match ms.filter (fun r => r.cp == pc) with
    | [m] => siteReturn m
    | [] =>
      match cat.restaurants.filter (fun r => r.cp == pc) with
      | [] => none
      | allp =>
        let bestn := bestBy (fun r => calcNameSimilarity normalizedName (pyLower r.nom)) allp
        match bestn.1 with
        | some m => if scoreLt score03 bestn.2 then siteReturn m else none
        | none => none
    | pcn =>
      let bestn := bestBy (fun r => calcNameSimilarity normalizedName (pyLower r.nom)) pcn
      match bestn.1 with
      | some m => siteReturn m
      | none => none
  | none =>
    match pySortAscNat (fun r => r.nom.length) ms with
    | [] => none
    | m :: _ => siteReturn m

/-- Embedding of `PDFRenamer._find_restaurant_site`: name matching, then (on
zero matches) the address and postal-code fallbacks, then collector
validation, then (for several matches with an address) address
disambiguation, then the final postal-validation / unvalidated-fallback
block. -/
def findRestaurantSite (cat : Catalog) (entreprise collecte address : String) :
    Option (String × String) :=
  let normalizedName := if entreprise = "" then "" else pyStrip (pyLower entreprise)
  let ms := nameMatches cat entreprise
  match ms with
  | [] =>
    if address ≠ "" then
      match addressFallbackStep cat entreprise address with
      | some res => some res
      | none => postalFallbackStep cat entreprise address
    else none
  | _ :: _ =>
    if !((cat.collecteKeys.map pyUpper).contains (pyUpper collecte)) then none
    else
      let disamb :=
        if 1 < ms.length && address ≠ "" then disambiguationStep cat entreprise address ms
        else none
      match disamb with
      | some res => some res
      | none => finalBlockStep cat normalizedName address ms

/-- The `provider_aliases` table of `PDFRenamer.__init__`, in insertion
(iteration) order. -/
def providerAliases : List (String × String) :=
  [("COVED", "PAPREC"), ("IDDEE 13 SAS", "ELISE"), ("ELISE MEDITERRANEE", "ELISE")]

/-- Alias tier of `_find_base_collecte_name`: the parent of the first alias in
table order whose upper-cased form is a substring of the upper-cased provider
text. -/
def aliasTier (provider : String) : Option String :=
  (providerAliases.find? fun al => containsSub (pyUpper provider) (pyUpper al.1)).map
    fun al => al.2

/-- Word-set tier of `_find_base_collecte_name`: collector keys sorted stably
by descending word count; the first whose upper-cased words are all among the
provider's delimiter-split tokens. -/
def wordTier (keys : List String) (words : List String) : Option String :=
  (pySortDescNat (fun k => (pySplitWs k).length) keys).find? fun k =>
    (pySplitWs (pyUpper k)).all fun w => words.contains w

/-- Substring tier of `_find_base_collecte_name`: collector keys sorted stably
by descending length; the first contained verbatim in the upper-cased provider
text. -/
def subTier (keys : List String) (provider : String) : Option String :=
  (pySortDescNat (fun k => k.length) keys).find? fun k =>
    containsSub (pyUpper provider) (pyUpper k)

/-- Fuzzy tier of `_find_base_collecte_name`: the strict-improvement fold of
`SequenceMatcher(None, collecte_upper, provider_word).ratio()` over every
collector key (outer, in catalog order) and provider token (inner). -/
def fuzzyBest (keys : List String) (words : List String) : Option String × Score :=
  keys.foldl
    (fun best k =>
      words.foldl
        (fun best w =>
          let r := smRatio (pyUpper k) w
          if scoreLt best.2 r then (some k, r) else best)
        best)
    (none, scoreZero)

/-- Acceptance decision of the fuzzy tier: the best-ratio key when the best
ratio reaches the `FUZZY_MATCH_THRESHOLD` of 0.8, else nothing. -/
def fuzzyTier (keys : List String) (words : List String) : Option String :=
  let best := fuzzyBest keys words
  if scoreLe score08 best.2 then best.1 else none

/-- Embedding of `PDFRenamer._find_base_collecte_name`, parameterized by the
token list the fuzzy and word tiers iterate over (the Python code builds a
`set` from `re.split(r'[\s.-]', provider.upper())`, whose iteration order is
arbitrary; `findBaseCollecteName` below instantiates it with the split order).
Tiers in order: alias table, word-set match, substring match, fuzzy match at
threshold 0.8. -/
def findBaseCollecteNameWords (keys : List String) (provider : String)
    (words : List String) : Option String :=
  if provider = "" then none
  else
    match aliasTier provider with
    | some parent => some parent
    | none =>
      match wordTier keys words with
      | some k => some k
      | none =>
        match subTier keys provider with
        | some k => some k
        | none => fuzzyTier keys words

/-- Embedding of `PDFRenamer._find_base_collecte_name` with the provider
tokens in split order. -/
def findBaseCollecteName (keys : List String) (provider : String) : Option String :=
  findBaseCollecteNameWords keys provider (splitProviderDelims (pyUpper provider))

/-- Embedding of `PDFRenamer._determine_collecte_suffix`: upper-case and
remove the space characters. -/
def determineCollecteSuffix (collecte : String) : String :=
  String.mk ((pyUpper collecte).data.filter fun c => !(c == ' '))

/-- The structured fields of a Gemini extraction result consumed by
`generate_new_filename_with_details` (absent or null fields are the empty
string; `site_number` is kept as the extracted text, `none` when absent). -/
structure Analysis where
  entreprise : String
  invoiceProvider : String
  invoiceDate : String
  invoiceNumber : String
  restaurantAddress : String
  siteNumber : Option String
deriving DecidableEq, Repr

/-- Post-processing filter of `generate_new_filename_with_details`: drop the
extracted address when it contains `"34"` and, case-insensitively,
`"boulevard des italiens"` (the operator's own address). -/
def ruboFilter (addr : String) : String :=
  if containsSub addr "34" && containsSub (pyLower addr) "boulevard des italiens" then ""
  else addr

/-- Embedding of `PDFRenamer._handle_invoice_with_site_number` (providers
ABCDE / REFOOD / VEOLIA): sanitize the extracted site number to its digits
with leading zeros stripped, require a date and an invoice number, and
compose the filename directly. -/
def handleInvoiceWithSiteNumber (a : Analysis) (providerName : String) : Option String :=
  match a.siteNumber with
  | none => none
  | some sn =>
    if sn = "" then none
    else
      let digits := sn.data.filter isDigitChar
      if digits.isEmpty then none
      else
        let sn2 := toString (digitsToNat digits)
        if a.invoiceDate = "" || a.invoiceNumber = "" then none
        else
          some (sn2 ++ "-" ++ providerName ++ "-" ++ formatDate a.invoiceDate ++ "-" ++
            sanitizeInvoiceNumber a.invoiceNumber ++ ".pdf")

/-- Embedding of the pure part of
`PDFRenamer.generate_new_filename_with_details`, from the extracted analysis
onward: the RUBO-address filter, the special site-number providers, the
required-field checks, collector resolution and validation, site resolution,
and composition of `site-collecte-date-number.pdf` (failures modelled as
`none`). -/
def generateNewFilenameWithDetails (cat : Catalog) (a : Analysis) : Option String :=
  let address := ruboFilter a.restaurantAddress
  if a.invoiceProvider ≠ "" &&
      ((pyUpper a.invoiceProvider == "ABCDE") || (pyUpper a.invoiceProvider == "REFOOD") ||
        (pyUpper a.invoiceProvider == "VEOLIA")) then
    handleInvoiceWithSiteNumber a (pyUpper a.invoiceProvider)
  else
    if (a.entreprise = "" && address = "") || a.invoiceProvider = "" ||
        a.invoiceDate = "" || a.invoiceNumber = "" then none
    else
      match findBaseCollecteName cat.collecteKeys a.invoiceProvider with
      | none => none
      | some baseCollecte =>
        if !(cat.collecteKeys.contains baseCollecte) then none
        else
          match findRestaurantSite cat a.entreprise baseCollecte address with
          | none => none
          | some (siteNumber, _) =>
            some (siteNumber ++ "-" ++ determineCollecteSuffix baseCollecte ++ "-" ++
              formatDate a.invoiceDate ++ "-" ++
              sanitizeInvoiceNumber a.invoiceNumber ++ ".pdf")

/-- The persisted ledger of `PersistentRateLimiter` (`usage_data`):
per-date daily counters, the timestamp list of the minute window, and the
`last_updated` stamp. -/
structure UsageData where
  dailyRequests : List (String × Nat)
  minuteRequests : List String
  lastUpdated : String
deriving DecidableEq, Repr

/-- Today's count: `usage_data['daily_requests'].get(today_str, 0)`. -/
def getToday (st : UsageData) (today : String) : Nat :=
  (st.dailyRequests.lookup today).getD 0

/-- Dictionary assignment `daily_requests[today] = v`. -/
def setDaily : List (String × Nat) → String → Nat → List (String × Nat)
  | [], k, v => [(k, v)]
  | (k', v') :: rest, k, v =>
    if k' == k then (k, v) :: rest else (k', v') :: setDaily rest k v

/-- Embedding of `PersistentRateLimiter.wait_if_needed` as a ledger
transition: when today's counter has reached the daily ceiling the call
raises (`none`; the ledger is not touched and not saved); otherwise the
current timestamp is appended to the minute window, today's counter is
incremented, and the ledger is saved with a fresh `last_updated`. The
per-minute branch only sleeps — it performs no ledger mutation of its own, so
it does not appear in the state transition. -/
def waitIfNeeded (maxPerDay : Nat) (today now : String) (st : UsageData) :
    Option UsageData :=
  if maxPerDay ≤ getToday st today then none
  else
    some
      { dailyRequests := setDaily st.dailyRequests today (getToday st today + 1)
        minuteRequests := st.minuteRequests ++ [now]
        lastUpdated := now }

/-- Run a sequence of `wait_if_needed` calls (each given its `(today, now)`
stamps); a failed call leaves the ledger unchanged. -/
def runAdmits (maxPerDay : Nat) : List (String × String) → UsageData → UsageData
  | [], st => st
  | (today, now) :: rest, st =>
    runAdmits maxPerDay rest ((waitIfNeeded maxPerDay today now st).getD st)

/-- Key-filling loop of `_load_usage_data` over a parsed string-keyed JSON
object (`for key in default_data: if key not in data: data[key] = ...`),
generic in the value type, which the loop never inspects; a missing key is
inserted (dict insertion appends). -/
def ensureKeys (defaults : List (String × α)) (data : List (String × α)) :
    List (String × α) :=
  defaults.foldl
    (fun d kv => if (d.lookup kv.1).isSome then d else d ++ [kv])
    data

/-- The three schema fields of the ledger with their empty defaults
(`default_data` in `_load_usage_data`), tagged by field type. -/
inductive UVal
  | daily (l : List (String × Nat))
  | minute (l : List String)
  | ts (s : String)
deriving DecidableEq, Repr

/-- The `default_data` object: empty daily map, empty minute list, and the
current time as `last_updated`. -/
def usageDefaults (now : String) : List (String × UVal) :=
  [("daily_requests", UVal.daily []), ("minute_requests", UVal.minute []),
   ("last_updated", UVal.ts now)]

/-- Outcome of reading and JSON-parsing the ledger file, as
`_load_usage_data` observes it: the file may be absent; opening or reading it
may raise `IOError`; `json.load` may raise `UnicodeDecodeError` when the
bytes cannot be text-decoded (a `ValueError` that is neither the caught
`json.JSONDecodeError` nor an `IOError`) or `json.JSONDecodeError` when the
decoded text is not valid JSON; or parsing succeeds, with either a
string-keyed object, a non-container value (`null`, a bool, or a number), an
array (only its string elements are tracked — a non-string element never
compares equal to a string schema key), or a string. -/
inductive LedgerFile
  | missing
  | ioError
  | undecodable
  | unparsable
  | object (data : List (String × UVal))
  | scalar
  | array (elems : List String)
  | jstring (s : String)
deriving DecidableEq, Repr

/-- Result of `_load_usage_data`: a returned string-keyed dictionary, a
returned non-dictionary value (a malformed ledger, passed through
unchanged), or an uncaught exception propagating out of the call. -/
inductive LoadOutcome
  | returnedMap (data : List (String × UVal))
  | returnedArray (elems : List String)
  | returnedString (s : String)
  | unicodeDecodeError
  | typeError
deriving DecidableEq, Repr

/-- Embedding of `PersistentRateLimiter._load_usage_data`. A missing file
yields the defaults (which are also written back); `except
(json.JSONDecodeError, IOError)` turns an unreadable file or invalid JSON
text into the defaults; an undecodable file raises `UnicodeDecodeError`,
which that clause does not catch. For a parsed object the key-filling loop
inserts each missing schema key. For a parsed non-container value the first
membership test `key not in data` raises `TypeError` (the default table is
non-empty); for an array or string, membership is element equality
resp. substring search, so when some schema key is absent the assignment
`data[key] = ...` raises `TypeError`, and when all three keys are present the
value is returned unchanged — a malformed ledger. -/
def loadUsageData (now : String) : LedgerFile → LoadOutcome
  | .missing => .returnedMap (usageDefaults now)
  | .ioError => .returnedMap (usageDefaults now)
  | .unparsable => .returnedMap (usageDefaults now)
  | .undecodable => .unicodeDecodeError
  | .object data => .returnedMap (ensureKeys (usageDefaults now) data)
  | .scalar => .typeError
  | .array elems =>
    if (usageDefaults now).all (fun kv => elems.contains kv.1) then .returnedArray elems
    else .typeError
  | .jstring s =>
    if (usageDefaults now).all (fun kv => containsSub s kv.1) then .returnedString s
    else .typeError

/-- The resolution pair of the pipeline (Entity Resolver Steps A and B):
collector resolution with validation against the catalog, then site
resolution with the resolved collector; the outcome is the `(site id,
collector key)` pair or a failure. Parameterized, like
`findBaseCollecteNameWords`, by the enumeration order of the provider's token
set. -/
def resolveEntities (cat : Catalog) (entreprise provider address : String)
    (words : List String) : Option (String × String) :=
  match findBaseCollecteNameWords cat.collecteKeys provider words with
  | none => none
  | some bc =>
    if cat.collecteKeys.contains bc then
      match findRestaurantSite cat entreprise bc address with
      | some (site, _) => some (site, bc)
      | none => none
    else none

/-- The maximum, over a token list, of the value of the fuzzy ratio of one key
against each token (used in proofs to characterize the fuzzy tier). -/
def wordRatioMax (k : String) (ws : List String) : ℚ :=
  ws.foldr (fun w m => max ((smRatio (pyUpper k) w).toRat) m) 0

/-- Value-level counterpart of `fuzzyBest`: the strict-improvement fold over
the per-key maximal ratios (used in proofs). -/
def semFuzzy (keys : List String) (ws : List String) : Option String × ℚ :=
  keys.foldl
    (fun s kk => if s.2 < wordRatioMax kk ws then (some kk, wordRatioMax kk ws) else s)
    (none, 0)

/-- A fixed one-record catalog exercising the address tier: the record's name
is dissimilar to the query, its address is identical to the invoice address. -/
def c3Catalog : Catalog := ⟨[⟨"88", "abcd", "1 z", ""⟩], ["SUEZ"]⟩

/-! Supporting lemmas. -/

theorem alnum_toNat_lt (c : Char) (h : isAsciiAlnum c = true) : c.toNat < 128 := by
  simp only [isAsciiAlnum, Bool.or_eq_true, Bool.and_eq_true, decide_eq_true_eq] at h
  omega

theorem deaccentChar_alnum (c : Char) (h : isAsciiAlnum c = true) : deaccentChar c = [c] := by
  unfold deaccentChar
  rw [if_pos (alnum_toNat_lt c h)]

theorem flatten_map_deaccent (l : List Char) (h : ∀ c ∈ l, isAsciiAlnum c = true) :
    (l.map deaccentChar).flatten = l := by
  induction l with
  | nil => rfl
  | cons c cs ih =>
    simp only [List.map_cons, List.flatten_cons]
    rw [deaccentChar_alnum c (h c (List.mem_cons_self c cs)),
      ih (fun x hx => h x (List.mem_cons_of_mem _ hx))]
    rfl

theorem alnum_ne_backslash (c : Char) (h : isAsciiAlnum c = true) : (!(c == '\\')) = true := by
  simp only [Bool.not_eq_eq_eq_not, Bool.not_true, beq_eq_false_iff_ne, ne_eq]
  intro hc
  subst hc
  simp [isAsciiAlnum] at h

theorem sanitize_fixed (t : String) (hmem : ∀ c ∈ t.data, isAsciiAlnum c = true) :
    sanitizeInvoiceNumber t = t := by
  obtain ⟨l⟩ := t
  by_cases ht : String.mk l = ""
  · rw [ht]
    rfl
  · unfold sanitizeInvoiceNumber
    rw [if_neg ht]
    show String.mk _ = String.mk l
    rw [flatten_map_deaccent l hmem, List.filter_eq_self.mpr hmem,
      List.filter_eq_self.mpr fun c hc => alnum_ne_backslash c (hmem c hc)]

/-! Claim theorems: invoice-number sanitization (C1, C10). -/

/-- C1 (counterexample): the spec's Scenario 3 expects the sanitized form of
"H-0E/0228 333é" to be "H0E0228333", but `_sanitize_invoice_number` first
strips the accent of the final `é` to `e`, which is alphanumeric and is
therefore kept, so the code produces "H0E0228333e". -/
theorem sanitize_scenario3_counterexample :
    sanitizeInvoiceNumber "H-0E/0228 333é" ≠ "H0E0228333" := by decide

/-- C1 (amended): invoice-number sanitization strips diacritics and then
removes every non-alphanumeric character; for the input "H-0E/0228 333é" the
sanitized result equals "H0E0228333e" (the de-accented trailing `e` is
retained). -/
theorem sanitize_scenario3_amended :
    sanitizeInvoiceNumber "H-0E/0228 333é" = "H0E0228333e" := by decide

/-- C10: invoice-number sanitization is idempotent, and its result contains
only ASCII alphanumeric characters. -/
theorem sanitize_idempotent_alnum (s : String) :
    sanitizeInvoiceNumber (sanitizeInvoiceNumber s) = sanitizeInvoiceNumber s ∧
    ∀ c ∈ (sanitizeInvoiceNumber s).data, isAsciiAlnum c = true := by
  by_cases hs : s = ""
  · subst hs
    constructor
    · rfl
    · intro c hc
      simp only [sanitizeInvoiceNumber, if_pos rfl] at hc
      simp at hc
  · have hmem : ∀ c ∈ (sanitizeInvoiceNumber s).data, isAsciiAlnum c = true := by
      intro c hc
      simp only [sanitizeInvoiceNumber, if_neg hs] at hc
      have := List.of_mem_filter hc
      have hc2 := List.mem_of_mem_filter hc
      exact List.of_mem_filter hc2
    exact ⟨sanitize_fixed _ hmem, hmem⟩

/-- C10 (witness): idempotence evaluated at the concrete input "ab-1é". -/
theorem sanitize_idempotent_alnum_witness :
    sanitizeInvoiceNumber (sanitizeInvoiceNumber "ab-1é") = sanitizeInvoiceNumber "ab-1é" :=
  (sanitize_idempotent_alnum "ab-1é").1

/-! Claim theorems: date formatting and the composer (C2). -/

/-- C2 (counterexample): for the unparsable date "99/99/9999" the composer
does not fail — `_format_date` returns the literal string "UNKNOWN" and
`generate_new_filename_with_details` still produces a filename embedding it. -/
theorem format_date_counterexample :
    parseDateDDMMYYYY "99/99/9999" = none ∧
    generateNewFilenameWithDetails
      ⟨[⟨"620", "McDonalds Chalon", "1 rue du Port", "71100"⟩], ["SUEZ"]⟩
      ⟨"McDonalds Chalon", "SUEZ", "99/99/9999", "123", "", none⟩ =
      some "620-SUEZ-UNKNOWN-123.pdf" := by decide

/-- C2 (amended): for every date string that is not parsable as
day/month/year the period component is the literal string "UNKNOWN" (no typed
failure: the filename is still produced, as the counterexample shows), and for
every parsable DD/MM/YYYY string the period component is the MMYYYY
reformatting of it. -/
theorem format_date_amended (s : String) :
    (parseDateDDMMYYYY s = none → formatDate s = "UNKNOWN") ∧
    ∀ d m y, parseDateDDMMYYYY s = some (d, m, y) →
      formatDate s = padMonth m ++ toString y := by
  constructor
  · intro h
    simp [formatDate, h]
  · intro d m y h
    simp [formatDate, h]

/-- C2 (witness): the amended statement evaluated at "not a date" and at
"03/06/2025". -/
theorem format_date_amended_witness :
    formatDate "not a date" = "UNKNOWN" ∧ formatDate "03/06/2025" = "062025" := by
  refine ⟨(format_date_amended "not a date").1 (by decide), ?_⟩
  have h := (format_date_amended "03/06/2025").2 3 6 2025 (by decide)
  rw [h]
  decide

/-! Claim theorems: the address tier of site resolution (C3). -/

/-- C3 (counterexample): the catalog record "abcd" has address similarity 1.0
(at or above 0.7) to the invoice address "1 z", the query "xyz" has zero name
matches and the address is non-empty — yet resolution fails, because
`_find_address_matches` first requires its name-similarity test to pass. -/
theorem address_tier_counterexample :
    scoreLe score07 (calcAddressSimilarity "1 z" "1 z") = true ∧
    nameMatches c3Catalog "xyz" = [] ∧
    findRestaurantSite c3Catalog "xyz" "SUEZ" "1 z" = none := by decide

/-- C3 (amended): the address tier accepts a record only when the record also
passes the restaurant-name similarity test; with zero name matches (the name
test failing on every record) it therefore returns no matches at all,
regardless of address similarity, and — absent an extractable postal code —
site resolution fails. -/
theorem address_tier_requires_name_match (cat : Catalog)
    (entreprise collecte address : String) (hne : entreprise ≠ "")
    (hnm : nameMatches cat entreprise = [])
    (hsim : ∀ r ∈ cat.restaurants,
      isSimilarRestaurantName (pyLower entreprise) (pyLower r.nom) = false)
    (hpc : extractPostalCode address = none) :
    findAddressMatches cat entreprise address = [] ∧
    findRestaurantSite cat entreprise collecte address = none := by
  have hfam : findAddressMatches cat entreprise address = [] := by
    unfold findAddressMatches
    have hpass1 : (cat.restaurants.filterMap fun r =>
        if isSimilarRestaurantName (pyLower entreprise) (pyLower r.nom) then
          let s := calcAddressSimilarity address r.adresse
          if scoreLe score07 s then some (r, s) else none
        else none) = ([] : List (SiteRecord × Score)) := by
      rw [List.filterMap_eq_nil_iff]
      intro r hr
      rw [if_neg]
      rw [hsim r hr]
      exact Bool.false_ne_true
    rw [hpass1]
    have hfil : (cat.restaurants.filter fun r =>
        isSimilarRestaurantName (pyLower entreprise) (pyLower r.nom)) = [] := by
      rw [List.filter_eq_nil_iff]
      intro r hr
      rw [hsim r hr]
      exact Bool.false_ne_true
    rw [hfil]
    rfl
  refine ⟨hfam, ?_⟩
  unfold findRestaurantSite
  rw [hnm]
  by_cases ha : address ≠ ""
  · rw [if_pos ha]
    have hstep : addressFallbackStep cat entreprise address = none := by
      unfold addressFallbackStep
      rw [if_neg hne, hfam]
    rw [hstep]
    unfold postalFallbackStep
    rw [hpc]
  · rw [if_neg ha]

/-- C3 (witness): the amended statement evaluated on the concrete catalog of
the counterexample. -/
theorem address_tier_requires_name_match_witness :
    findAddressMatches c3Catalog "xyz" "1 z" = [] ∧
    findRestaurantSite c3Catalog "xyz" "SUEZ" "1 z" = none :=
  address_tier_requires_name_match c3Catalog "xyz" "SUEZ" "1 z" (by decide) (by decide)
    (by decide) (by decide)

/-! Claim theorems: the unvalidated name-match fallback (C4). -/

theorem bestBy_foldl_mem (score : α → Score) (l : List α) :
    ∀ (init : Option α × Score) (x : α),
      (l.foldl (fun b z => if scoreLt b.2 (score z) then (some z, score z) else b) init).1 =
        some x → init.1 = some x ∨ x ∈ l := by
  induction l with
  | nil => exact fun init x h => Or.inl h
  | cons a rest ih =>
    intro init x h
    rw [List.foldl_cons] at h
    rcases ih _ x h with h2 | h2
    · by_cases hc : scoreLt init.2 (score a) = true
      · rw [if_pos hc] at h2
        have hax : a = x := Option.some.inj h2
        exact Or.inr (List.mem_cons.mpr (Or.inl hax.symm))
      · rw [if_neg hc] at h2
        exact Or.inl h2
    · exact Or.inr (List.mem_cons_of_mem _ h2)

theorem bestBy_mem (score : α → Score) (l : List α) (x : α)
    (h : (bestBy score l).1 = some x) : x ∈ l := by
  rcases bestBy_foldl_mem score l (none, scoreZero) x h with h2 | h2
  · exact absurd h2 (by simp)
  · exact h2

theorem insertAscNatBy_mem (key : α → Nat) (x : α) (l : List α) (y : α)
    (h : y ∈ insertAscNatBy key x l) : y = x ∨ y ∈ l := by
  induction l with
  | nil => simpa [insertAscNatBy] using h
  | cons a rest ih =>
    unfold insertAscNatBy at h
    by_cases hc : key a ≤ key x
    · rw [if_pos hc] at h
      rcases List.mem_cons.mp h with h | h
      · exact Or.inr (h ▸ List.mem_cons_self a rest)
      · rcases ih h with h | h
        · exact Or.inl h
        · exact Or.inr (List.mem_cons_of_mem _ h)
    · rw [if_neg hc] at h
      rcases List.mem_cons.mp h with h | h
      · exact Or.inl h
      · exact Or.inr h

theorem insertAscNatBy_length (key : α → Nat) (x : α) (l : List α) :
    (insertAscNatBy key x l).length = l.length + 1 := by
  induction l with
  | nil => rfl
  | cons a rest ih =>
    unfold insertAscNatBy
    by_cases hc : key a ≤ key x
    · rw [if_pos hc]
      simp [ih]
    · rw [if_neg hc]
      rfl

theorem pySortAscNat_foldl_mem (key : α → Nat) (l : List α) :
    ∀ (acc : List α) (y : α),
      y ∈ l.foldl (fun acc x => insertAscNatBy key x acc) acc → y ∈ acc ∨ y ∈ l := by
  induction l with
  | nil => exact fun acc y h => Or.inl h
  | cons a rest ih =>
    intro acc y h
    rw [List.foldl_cons] at h
    rcases ih _ y h with h | h
    · rcases insertAscNatBy_mem key a acc y h with h | h
      · exact Or.inr (List.mem_cons.mpr (Or.inl h))
      · exact Or.inl h
    · exact Or.inr (List.mem_cons_of_mem _ h)

theorem pySortAscNat_mem (key : α → Nat) (l : List α) (y : α)
    (h : y ∈ pySortAscNat key l) : y ∈ l := by
  rcases pySortAscNat_foldl_mem key l [] y h with h | h
  · exact absurd h (List.not_mem_nil y)
  · exact h

theorem pySortAscNat_foldl_length (key : α → Nat) (l : List α) :
    ∀ (acc : List α),
      (l.foldl (fun acc x => insertAscNatBy key x acc) acc).length =
        acc.length + l.length := by
  induction l with
  | nil => exact fun acc => rfl
  | cons a rest ih =>
    intro acc
    rw [List.foldl_cons, ih, insertAscNatBy_length]
    simp [Nat.add_assoc, Nat.add_comm 1]

theorem pySortAscNat_ne_nil (key : α → Nat) (a : α) (l : List α) :
    pySortAscNat key (a :: l) ≠ [] := by
  intro h
  have := pySortAscNat_foldl_length key (a :: l) []
  rw [show (a :: l).foldl (fun acc x => insertAscNatBy key x acc) [] =
    pySortAscNat key (a :: l) from rfl, h] at this
  simp at this

theorem finalBlockStep_no_pc (cat : Catalog) (normName address : String)
    (ms : List SiteRecord) (hpc : extractPostalCode address = none) :
    finalBlockStep cat normName address ms =
      match pySortAscNat (fun r => r.nom.length) ms with
      | [] => none
      | m :: _ => siteReturn m := by
  unfold finalBlockStep
  have h0 : (if address ≠ "" then extractPostalCode address else none) = none := by
    by_cases ha : address ≠ ""
    · rw [if_pos ha, hpc]
    · rw [if_neg ha]
  rw [h0]

theorem disambiguationStep_cases (cat : Catalog) (entreprise address : String)
    (ms : List SiteRecord) (hpc : extractPostalCode address = none) :
    disambiguationStep cat entreprise address ms = none ∨
    ∃ m ∈ ms, disambiguationStep cat entreprise address ms = some (m.site, m.nom) := by
  unfold disambiguationStep
  simp only [hpc]
  cases hbest : (bestBy (fun r => calcAddressSimilarity address r.adresse) ms).1 with
  | none => exact Or.inl rfl
  | some m =>
    have hm : m ∈ ms := bestBy_mem _ ms m hbest
    cases hlt : scoreLt score06 (bestBy (fun r => calcAddressSimilarity address r.adresse) ms).2
    with
    | false =>
      left
      simp
    | true =>
      by_cases hsite : m.site = ""
      · left
        simp [siteReturn, hsite]
      · right
        exact ⟨m, hm, by simp [siteReturn, hsite]⟩

/-- C4: with one or more name matches, a valid collector, and no postal code
extractable from the invoice address, site resolution always accepts one of
the name matches (via address disambiguation when several matches and an
address are present, else via the unvalidated fallback); and when the address
is empty the accepted match is the head of the stable ascending sort of the
matches by canonical-name length — i.e. the shorter name variant wins. -/
theorem unvalidated_fallback (cat : Catalog) (entreprise collecte address : String)
    (r : SiteRecord) (rest : List SiteRecord)
    (hnm : nameMatches cat entreprise = r :: rest)
    (hvalid : (cat.collecteKeys.map pyUpper).contains (pyUpper collecte) = true)
    (hpc : extractPostalCode address = none)
    (hsites : ∀ x ∈ nameMatches cat entreprise, x.site ≠ "") :
    (∃ x ∈ nameMatches cat entreprise,
      findRestaurantSite cat entreprise collecte address = some (x.site, x.nom)) ∧
    (address = "" → ∀ m,
      (pySortAscNat (fun x => x.nom.length) (nameMatches cat entreprise)).head? = some m →
      findRestaurantSite cat entreprise collecte address = some (m.site, m.nom)) := by
  obtain ⟨m0, tail0, hsorted⟩ :
      ∃ m tail, pySortAscNat (fun x => x.nom.length) (r :: rest) = m :: tail := by
    cases hs : pySortAscNat (fun x => x.nom.length) (r :: rest) with
    | nil => exact absurd hs (pySortAscNat_ne_nil _ r rest)
    | cons m tail => exact ⟨m, tail, rfl⟩
  have hm0 : m0 ∈ nameMatches cat entreprise := by
    rw [hnm]
    exact pySortAscNat_mem _ _ m0 (hsorted ▸ List.mem_cons_self m0 tail0)
  have hm0site : m0.site ≠ "" := hsites m0 hm0
  have hfinal : finalBlockStep cat
      (if entreprise = "" then "" else pyStrip (pyLower entreprise)) address (r :: rest) =
      some (m0.site, m0.nom) := by
    rw [finalBlockStep_no_pc cat _ address (r :: rest) hpc, hsorted]
    simp [siteReturn, hm0site]
  have hcond : (!(cat.collecteKeys.map pyUpper).contains (pyUpper collecte)) = false := by
    rw [hvalid]
    rfl
  have hres : findRestaurantSite cat entreprise collecte address = some (m0.site, m0.nom) ∨
      (address ≠ "" ∧ ∃ x ∈ nameMatches cat entreprise,
        findRestaurantSite cat entreprise collecte address = some (x.site, x.nom)) := by
    unfold findRestaurantSite
    simp only [hnm, hcond, Bool.false_eq_true, if_false]
    by_cases ha : address = ""
    · left
      rw [ha] at hfinal
      simp [ha, hfinal]
    · rcases disambiguationStep_cases cat entreprise address (r :: rest) hpc with
        hd | ⟨x, hx, hd⟩
      · left
        simp only [hd, ite_self]
        exact hfinal
      · cases rest with
        | nil =>
          left
          simp [hfinal]
        | cons b bs =>
          right
          refine ⟨ha, x, hnm ▸ hx, ?_⟩
          simp [ha, hd]
  constructor
  · rcases hres with h | ⟨_, h⟩
    · exact ⟨m0, hm0, h⟩
    · exact h
  · intro ha m hm
    rcases hres with h | ⟨ha2, _⟩
    · rw [hnm, hsorted] at hm
      simp only [List.head?_cons, Option.some.injEq] at hm
      subst hm
      exact h
    · exact absurd ha ha2

/-- C4 (witness): Scenario 1 — entreprise "MAC DO CHALON" with no address and
two brand matches resolves to the record with the shorter canonical name,
"McDonalds Chalon", even though the longer "... Sur Saone Bowling" variant is
listed first in the catalog. -/
theorem unvalidated_fallback_witness :
    findRestaurantSite
      ⟨[⟨"1200", "McDonalds Chalon Sur Saone Bowling", "2 av S", "71100"⟩,
        ⟨"1173", "McDonalds Chalon", "1 r P", "71100"⟩], ["SUEZ"]⟩
      "MAC DO CHALON" "SUEZ" "" = some ("1173", "McDonalds Chalon") := by
  have h := unvalidated_fallback
    ⟨[⟨"1200", "McDonalds Chalon Sur Saone Bowling", "2 av S", "71100"⟩,
      ⟨"1173", "McDonalds Chalon", "1 r P", "71100"⟩], ["SUEZ"]⟩
    "MAC DO CHALON" "SUEZ" ""
    ⟨"1200", "McDonalds Chalon Sur Saone Bowling", "2 av S", "71100"⟩
    [⟨"1173", "McDonalds Chalon", "1 r P", "71100"⟩]
    (by decide) (by decide) (by decide) (by decide)
  exact h.2 rfl ⟨"1173", "McDonalds Chalon", "1 r P", "71100"⟩ (by decide)

/-! Claim theorems: collector resolution (C5, C6). -/

/-- C5: when the alias, word-set, and substring tiers all fail and the best
fuzzy ratio of any canonical key against any provider token is below 0.8,
`_find_base_collecte_name` returns no key; it never accepts a key whose best
ratio is below the 0.8 threshold. -/
theorem no_collector_below_fuzzy_threshold (keys : List String) (provider : String)
    (halias : aliasTier provider = none)
    (hword : wordTier keys (splitProviderDelims (pyUpper provider)) = none)
    (hsub : subTier keys provider = none)
    (hfuzzy : scoreLe score08 (fuzzyBest keys (splitProviderDelims (pyUpper provider))).2 =
      false) :
    findBaseCollecteName keys provider = none := by
  unfold findBaseCollecteName findBaseCollecteNameWords fuzzyTier
  by_cases hp : provider = ""
  · rw [if_pos hp]
  · rw [if_neg hp, halias, hword, hsub]
    simp [hfuzzy]

/-- C5 (witness): the provider text "QQQQQ" against the single key "SUEZ"
fails every tier (the fuzzy ratio is 0) and resolves to no key. -/
theorem no_collector_below_fuzzy_threshold_witness :
    findBaseCollecteName ["SUEZ"] "QQQQQ" = none :=
  no_collector_below_fuzzy_threshold ["SUEZ"] "QQQQQ" (by decide) (by decide) (by decide)
    (by decide)

/-- C6 (counterexample): the alias "IDDEE 13 SAS" maps to "ELISE" and occurs
in the provider text "IDDEE 13 SAS COVED", yet resolution returns "PAPREC",
because the alias tier stops at the first alias in table order ("COVED")
contained in the text. -/
theorem alias_transitivity_counterexample :
    ("IDDEE 13 SAS", "ELISE") ∈ providerAliases ∧
    containsSub (pyUpper "IDDEE 13 SAS COVED") (pyUpper "IDDEE 13 SAS") = true ∧
    findBaseCollecteName ["PAPREC", "ELISE"] "IDDEE 13 SAS COVED" = some "PAPREC" := by
  exact ⟨by decide, by decide, by decide⟩

theorem mem_providerAliases_upper_ne (A C : String) (h : (A, C) ∈ providerAliases) :
    pyUpper A ≠ "" := by
  simp only [providerAliases, List.mem_cons, List.not_mem_nil, or_false] at h
  rcases h with h | h | h <;> (injection h with h1 h2; subst h1; decide)

theorem containsSub_empty_right (needle : String) (h : needle ≠ "") :
    containsSub "" needle = false := by
  obtain ⟨l⟩ := needle
  cases l with
  | nil => exact absurd rfl h
  | cons c cs => rfl

/-- C6 (amended): the alias tier is consulted before the word-set, substring,
and fuzzy tiers (the conclusion holds for every key list); and for every alias
A mapped to collector C, a provider text that contains A case-insensitively
resolves to C provided every alias contained in the text maps to C (the
counterexample shows that when two aliases with different parents occur, the
first in table order wins instead). -/
theorem alias_resolution_amended (keys : List String) (provider A C : String)
    (hmem : (A, C) ∈ providerAliases)
    (hsub : containsSub (pyUpper provider) (pyUpper A) = true)
    (hall : ∀ p ∈ providerAliases,
      containsSub (pyUpper provider) (pyUpper p.1) = true → p.2 = C) :
    findBaseCollecteName keys provider = some C := by
  have hp : provider ≠ "" := by
    intro hp
    subst hp
    have h0 : pyUpper "" = "" := by decide
    rw [h0, containsSub_empty_right (pyUpper A) (mem_providerAliases_upper_ne A C hmem)] at hsub
    exact Bool.false_ne_true hsub
  have halias : aliasTier provider = some C := by
    unfold aliasTier
    cases hfind : providerAliases.find? fun al => containsSub (pyUpper provider) (pyUpper al.1)
    with
    | none =>
      exact absurd hsub (by simpa using List.find?_eq_none.mp hfind (A, C) hmem)
    | some q =>
      have hq1 := List.find?_some hfind
      have hq2 := List.mem_of_find?_eq_some hfind
      show some q.2 = some C
      rw [hall q hq2 hq1]
  unfold findBaseCollecteName findBaseCollecteNameWords
  rw [if_neg hp, halias]

/-- C6 (witness): the provider text "XX COVED YY" contains only the alias
"COVED" and resolves to "PAPREC" regardless of the key list. -/
theorem alias_resolution_amended_witness :
    findBaseCollecteName ["ELISE"] "XX COVED YY" = some "PAPREC" :=
  alias_resolution_amended ["ELISE"] "XX COVED YY" "COVED" "PAPREC" (by decide) (by decide)
    (by decide)

/-! Claim theorems: the call governor's ledger (C7, C8). -/

theorem lookup_setDaily (l : List (String × Nat)) (k : String) (v : Nat) (d : String) :
    (setDaily l k v).lookup d = if d = k then some v else l.lookup d := by
  induction l with
  | nil =>
    by_cases h : d = k
    · subst h
      simp [setDaily, List.lookup]
    · have hb : (d == k) = false := by simpa using h
      simp [setDaily, List.lookup, hb, h]
  | cons p rest ih =>
    obtain ⟨k', v'⟩ := p
    by_cases hk : k' = k
    · subst hk
      by_cases hd : d = k'
      · subst hd
        simp [setDaily, List.lookup]
      · have hb2 : (d == k') = false := by simpa using hd
        simp [setDaily, List.lookup, hb2, hd]
    · have hb : (k' == k) = false := by simpa using hk
      by_cases hd : d = k'
      · subst hd
        have hdk : ¬ d = k := fun h => hk h
        simp [setDaily, List.lookup, hb, hdk]
      · have hb2 : (d == k') = false := by simpa using hd
        simp [setDaily, List.lookup, hb, hb2, ih]

theorem getToday_waitIfNeeded (maxPerDay : Nat) (today now : String) (st : UsageData)
    (hinv : ∀ d, getToday st d ≤ maxPerDay) :
    ∀ d, getToday ((waitIfNeeded maxPerDay today now st).getD st) d ≤ maxPerDay := by
  intro d
  unfold waitIfNeeded
  by_cases h : maxPerDay ≤ getToday st today
  · rw [if_pos h]
    exact hinv d
  · rw [if_neg h]
    show getToday _ d ≤ maxPerDay
    unfold getToday
    show ((setDaily st.dailyRequests today (getToday st today + 1)).lookup d).getD 0 ≤ maxPerDay
    rw [lookup_setDaily]
    by_cases hd : d = today
    · rw [if_pos hd]
      show getToday st today + 1 ≤ maxPerDay
      omega
    · rw [if_neg hd]
      exact hinv d

/-- C7: if the daily counter for the current date is at the daily ceiling,
`wait_if_needed` fails without touching the ledger (the transition is `none`
and the caller keeps the old state); consequently, over every sequence of
calls from a ledger within the ceiling, the daily counter never exceeds the
ceiling. -/
theorem daily_ceiling_safe (maxPerDay : Nat) (calls : List (String × String))
    (st : UsageData) (hinv : ∀ d, getToday st d ≤ maxPerDay) :
    (∀ today now, maxPerDay ≤ getToday st today →
      waitIfNeeded maxPerDay today now st = none) ∧
    ∀ d, getToday (runAdmits maxPerDay calls st) d ≤ maxPerDay := by
  refine ⟨fun today now h => by unfold waitIfNeeded; rw [if_pos h], ?_⟩
  induction calls generalizing st with
  | nil => exact hinv
  | cons c rest ih =>
    obtain ⟨today, now⟩ := c
    exact ih _ (getToday_waitIfNeeded maxPerDay today now st hinv)

/-- C7 (witness): from a ledger already at a ceiling of 2 for date "d", the
call fails, and three further admissions never push the counter past 2. -/
theorem daily_ceiling_safe_witness :
    waitIfNeeded 2 "d" "t0" ⟨[("d", 2)], [], ""⟩ = none ∧
    getToday (runAdmits 2 [("d", "t1"), ("d", "t2"), ("d", "t3")] ⟨[("d", 2)], [], ""⟩)
      "d" ≤ 2 := by
  have hinv : ∀ x, getToday ⟨[("d", 2)], [], ""⟩ x ≤ 2 := by
    intro x
    show ((([("d", 2)] : List (String × Nat)).lookup x).getD 0) ≤ 2
    by_cases hx : x = "d"
    · subst hx
      decide
    · have : ¬ (x == "d") = true := by simpa using hx
      simp [List.lookup, this]
  have h := daily_ceiling_safe 2 [("d", "t1"), ("d", "t2"), ("d", "t3")]
    ⟨[("d", 2)], [], ""⟩ hinv
  exact ⟨h.1 "d" "t0" (by decide), h.2 "d"⟩

theorem lookup_append_assoc {α β : Type} [BEq α] (l₁ l₂ : List (α × β)) (k : α) :
    (l₁ ++ l₂).lookup k =
      match l₁.lookup k with
      | some v => some v
      | none => l₂.lookup k := by
  induction l₁ with
  | nil => rfl
  | cons p rest ih =>
    obtain ⟨k', v'⟩ := p
    by_cases h : (k == k') = true
    · simp [List.lookup, h]
    · simp only [List.cons_append, List.lookup, Bool.not_eq_true] at *
      rw [h]
      simpa [h] using ih

theorem ensureKeys_foldl_preserves {α : Type} (defaults : List (String × α))
    (data : List (String × α)) (k : String) (v : α) (h : data.lookup k = some v) :
    (ensureKeys defaults data).lookup k = some v := by
  unfold ensureKeys
  induction defaults generalizing data with
  | nil => exact h
  | cons kv rest ih =>
    show (List.foldl _ (if ((data.lookup kv.1).isSome) then data else data ++ [kv]) rest).lookup
        k = some v
    by_cases hc : (data.lookup kv.1).isSome
    · rw [if_pos hc]
      exact ih data h
    · rw [if_neg hc]
      refine ih _ ?_
      rw [lookup_append_assoc, h]

theorem ensureKeys_foldl_covers {α : Type} (defaults : List (String × α))
    (data : List (String × α)) (k : String) (v : α) (h : (k, v) ∈ defaults) :
    ((ensureKeys defaults data).lookup k).isSome = true := by
  unfold ensureKeys
  induction defaults generalizing data with
  | nil => exact absurd h (List.not_mem_nil _)
  | cons kv rest ih =>
    rcases List.mem_cons.mp h with hk | hk
    · subst hk
      show ((List.foldl _ (if ((data.lookup k).isSome) then data else data ++ [(k, v)])
          rest).lookup k).isSome = true
      by_cases hc : (data.lookup k).isSome
      · rw [if_pos hc]
        obtain ⟨w, hw⟩ := Option.isSome_iff_exists.mp hc
        rw [show (List.foldl (fun d kv => if (d.lookup kv.1).isSome then d else d ++ [kv])
          data rest) = ensureKeys rest data from rfl,
          ensureKeys_foldl_preserves rest data k w hw]
        rfl
      · rw [if_neg hc]
        have hl : (data ++ [(k, v)]).lookup k = some v := by
          rw [lookup_append_assoc]
          rw [Option.not_isSome_iff_eq_none] at hc
          rw [hc]
          simp [List.lookup]
        rw [show (List.foldl (fun d kv => if (d.lookup kv.1).isSome then d else d ++ [kv])
          (data ++ [(k, v)]) rest) = ensureKeys rest (data ++ [(k, v)]) from rfl,
          ensureKeys_foldl_preserves rest _ k v hl]
        rfl
    · exact ih _ hk

/-- C8 (counterexample): loading can fail and can yield an ill-formed ledger —
a file whose bytes cannot be text-decoded raises an uncaught
`UnicodeDecodeError` (it is neither the caught `json.JSONDecodeError` nor an
`IOError`); a parsable non-container file such as `null` raises an uncaught
`TypeError` at the first `key not in data` test; and a parsable JSON array
listing the three schema key names is returned unchanged, which is not a
well-formed ledger object. -/
theorem load_usage_data_counterexample :
    loadUsageData "T" LedgerFile.undecodable = LoadOutcome.unicodeDecodeError ∧
    loadUsageData "T" LedgerFile.scalar = LoadOutcome.typeError ∧
    loadUsageData "T"
        (LedgerFile.array ["daily_requests", "minute_requests", "last_updated"]) =
      LoadOutcome.returnedArray ["daily_requests", "minute_requests", "last_updated"] := by
  exact ⟨rfl, rfl, by decide⟩

/-- C8 (amended): loading reinitializes every field to the empty default for
a missing file, an unreadable file (`IOError`), or a file whose text is not
valid JSON (`json.JSONDecodeError`); when parsing yields a string-keyed
object it returns that object with every missing schema key filled in from
the defaults and every present key kept. Loading is not total, however: an
undecodable file raises an uncaught `UnicodeDecodeError`, and a parsable
non-object value raises an uncaught `TypeError` — unless it is an array or
string containing all three schema key names, in which case it is returned
unchanged as a malformed ledger. -/
theorem load_usage_data_amended (now : String) (data : List (String × UVal))
    (elems : List String) (s : String) :
    loadUsageData now LedgerFile.missing = LoadOutcome.returnedMap (usageDefaults now) ∧
    loadUsageData now LedgerFile.ioError = LoadOutcome.returnedMap (usageDefaults now) ∧
    loadUsageData now LedgerFile.unparsable = LoadOutcome.returnedMap (usageDefaults now) ∧
    loadUsageData now LedgerFile.undecodable = LoadOutcome.unicodeDecodeError ∧
    loadUsageData now LedgerFile.scalar = LoadOutcome.typeError ∧
    loadUsageData now (LedgerFile.object data) =
      LoadOutcome.returnedMap (ensureKeys (usageDefaults now) data) ∧
    (∀ k v, (k, v) ∈ usageDefaults now →
      ((ensureKeys (usageDefaults now) data).lookup k).isSome = true) ∧
    (∀ k v, data.lookup k = some v →
      (ensureKeys (usageDefaults now) data).lookup k = some v) ∧
    ((usageDefaults now).all (fun kv => elems.contains kv.1) = false →
      loadUsageData now (LedgerFile.array elems) = LoadOutcome.typeError) ∧
    ((usageDefaults now).all (fun kv => containsSub s kv.1) = false →
      loadUsageData now (LedgerFile.jstring s) = LoadOutcome.typeError) := by
  refine ⟨rfl, rfl, rfl, rfl, rfl, rfl, ?_, ?_, ?_, ?_⟩
  · intro k v h
    exact ensureKeys_foldl_covers _ data k v h
  · intro k v h
    exact ensureKeys_foldl_preserves _ data k v h
  · intro h
    simp only [loadUsageData]
    rw [h]
    rfl
  · intro h
    simp only [loadUsageData]
    rw [h]
    rfl

/-- C8 (witness): the amended statement evaluated at a missing file, at a
parsed object carrying only a daily map (the two absent schema keys are
defaulted, the present one is kept), and at a parsed array missing the schema
keys (an uncaught `TypeError`). -/
theorem load_usage_data_amended_witness :
    loadUsageData "T" LedgerFile.missing = LoadOutcome.returnedMap (usageDefaults "T") ∧
    ((ensureKeys (usageDefaults "T")
        [("daily_requests", UVal.daily [("2025-10-12", 3)])]).lookup
      "minute_requests").isSome = true ∧
    (ensureKeys (usageDefaults "T")
        [("daily_requests", UVal.daily [("2025-10-12", 3)])]).lookup
      "daily_requests" = some (UVal.daily [("2025-10-12", 3)]) ∧
    loadUsageData "T" (LedgerFile.array ["x"]) = LoadOutcome.typeError := by
  have h := load_usage_data_amended "T"
    [("daily_requests", UVal.daily [("2025-10-12", 3)])] ["x"] "x"
  exact ⟨h.1, h.2.2.2.2.2.2.1 "minute_requests" (UVal.minute []) (by decide),
    h.2.2.2.2.2.2.2.1 "daily_requests" _ (by decide),
    h.2.2.2.2.2.2.2.2.1 (by decide)⟩

/-! Claim theorems: determinism of resolution (C9). -/

theorem Score.toRat_nonneg (a : Score) : 0 ≤ a.toRat := by
  unfold Score.toRat
  positivity

theorem scoreZero_toRat : scoreZero.toRat = 0 := by
  simp [Score.toRat, scoreZero]

theorem scoreLt_iff (a b : Score) : scoreLt a b = true ↔ a.toRat < b.toRat := by
  unfold scoreLt Score.toRat
  rw [decide_eq_true_iff,
    div_lt_div_iff₀ (by exact_mod_cast a.den_pos) (by exact_mod_cast b.den_pos)]
  constructor
  · intro h
    exact_mod_cast h
  · intro h
    exact_mod_cast h

theorem scoreLe_iff (a b : Score) : scoreLe a b = true ↔ a.toRat ≤ b.toRat := by
  unfold scoreLe Score.toRat
  rw [decide_eq_true_iff,
    div_le_div_iff₀ (by exact_mod_cast a.den_pos) (by exact_mod_cast b.den_pos)]
  constructor
  · intro h
    exact_mod_cast h
  · intro h
    exact_mod_cast h

theorem fuzzy_inner_sem (k : String) (ws : List String) :
    ∀ b : Option String × Score,
      ((ws.foldl (fun best w =>
          let r := smRatio (pyUpper k) w
          if scoreLt best.2 r then (some k, r) else best) b).1 =
            if b.2.toRat < wordRatioMax k ws then some k else b.1) ∧
      (ws.foldl (fun best w =>
          let r := smRatio (pyUpper k) w
          if scoreLt best.2 r then (some k, r) else best) b).2.toRat =
        max b.2.toRat (wordRatioMax k ws) := by
  induction ws with
  | nil =>
    intro b
    have h0 : wordRatioMax k [] = 0 := rfl
    refine ⟨?_, ?_⟩
    · rw [List.foldl_nil, h0, if_neg (not_lt.mpr (Score.toRat_nonneg b.2))]
    · rw [List.foldl_nil, h0]
      exact (max_eq_left (Score.toRat_nonneg b.2)).symm
  | cons w ws ih =>
    intro b
    have hw : wordRatioMax k (w :: ws) =
        max ((smRatio (pyUpper k) w).toRat) (wordRatioMax k ws) := rfl
    obtain ⟨ih1, ih2⟩ :=
      ih (if scoreLt b.2 (smRatio (pyUpper k) w) then
        ((some k, smRatio (pyUpper k) w) : Option String × Score) else b)
    by_cases hc : scoreLt b.2 (smRatio (pyUpper k) w) = true
    · have hcq : b.2.toRat < (smRatio (pyUpper k) w).toRat := (scoreLt_iff _ _).mp hc
      rw [if_pos hc] at ih1 ih2
      refine ⟨?_, ?_⟩
      · rw [List.foldl_cons]
        show (List.foldl _ (if scoreLt b.2 (smRatio (pyUpper k) w) then
          ((some k, smRatio (pyUpper k) w) : Option String × Score) else b) ws).1 = _
        rw [if_pos hc, hw]
        rw [if_pos (lt_of_lt_of_le hcq (le_max_left _ _))]
        rw [show ((some k, smRatio (pyUpper k) w) : Option String × Score).2.toRat =
          (smRatio (pyUpper k) w).toRat from rfl] at ih1
        rw [ih1]
        exact ite_self _
      · rw [List.foldl_cons]
        show (List.foldl _ (if scoreLt b.2 (smRatio (pyUpper k) w) then
          ((some k, smRatio (pyUpper k) w) : Option String × Score) else b) ws).2.toRat = _
        rw [if_pos hc, hw, ih2]
        rw [max_eq_right (le_trans (le_of_lt hcq) (le_max_left _ _))]
    · have hcq : ¬ b.2.toRat < (smRatio (pyUpper k) w).toRat := fun h =>
        hc ((scoreLt_iff _ _).mpr h)
      rw [if_neg hc] at ih1 ih2
      refine ⟨?_, ?_⟩
      · rw [List.foldl_cons]
        show (List.foldl _ (if scoreLt b.2 (smRatio (pyUpper k) w) then
          ((some k, smRatio (pyUpper k) w) : Option String × Score) else b) ws).1 = _
        rw [if_neg hc, hw, ih1]
        have hiff : b.2.toRat < max ((smRatio (pyUpper k) w).toRat) (wordRatioMax k ws) ↔
            b.2.toRat < wordRatioMax k ws := by
          rw [lt_max_iff]
          exact ⟨fun h => h.resolve_left hcq, Or.inr⟩
        by_cases hm : b.2.toRat < wordRatioMax k ws
        · rw [if_pos hm, if_pos (hiff.mpr hm)]
        · rw [if_neg hm, if_neg (fun h => hm (hiff.mp h))]
      · rw [List.foldl_cons]
        show (List.foldl _ (if scoreLt b.2 (smRatio (pyUpper k) w) then
          ((some k, smRatio (pyUpper k) w) : Option String × Score) else b) ws).2.toRat = _
        rw [if_neg hc, hw, ih2]
        rw [← max_assoc, max_eq_left (not_lt.mp hcq)]

theorem fuzzyBest_foldl_sem (keys ws : List String) :
    ∀ (b : Option String × Score) (sb : Option String × ℚ), b.1 = sb.1 →
      b.2.toRat = sb.2 →
      (keys.foldl (fun best kk =>
          ws.foldl (fun best w =>
            let r := smRatio (pyUpper kk) w
            if scoreLt best.2 r then (some kk, r) else best) best) b).1 =
        (keys.foldl (fun s kk =>
          if s.2 < wordRatioMax kk ws then (some kk, wordRatioMax kk ws) else s) sb).1 ∧
      (keys.foldl (fun best kk =>
          ws.foldl (fun best w =>
            let r := smRatio (pyUpper kk) w
            if scoreLt best.2 r then (some kk, r) else best) best) b).2.toRat =
        (keys.foldl (fun s kk =>
          if s.2 < wordRatioMax kk ws then (some kk, wordRatioMax kk ws) else s) sb).2 := by
  induction keys with
  | nil => exact fun b sb h1 h2 => ⟨h1, h2⟩
  | cons kk rest ih =>
    intro b sb h1 h2
    rw [List.foldl_cons, List.foldl_cons]
    obtain ⟨j1, j2⟩ := fuzzy_inner_sem kk ws b
    refine ih _ _ ?_ ?_
    · rw [j1, h1, h2]
      by_cases hm : sb.2 < wordRatioMax kk ws
      · rw [if_pos hm, if_pos hm]
      · rw [if_neg hm, if_neg hm]
    · rw [j2, h2]
      by_cases hm : sb.2 < wordRatioMax kk ws
      · rw [if_pos hm]
        exact max_eq_right (le_of_lt hm)
      · rw [if_neg hm]
        exact max_eq_left (not_lt.mp hm)

theorem fuzzyBest_sem (keys ws : List String) :
    (fuzzyBest keys ws).1 = (semFuzzy keys ws).1 ∧
    (fuzzyBest keys ws).2.toRat = (semFuzzy keys ws).2 :=
  fuzzyBest_foldl_sem keys ws (none, scoreZero) (none, 0) rfl scoreZero_toRat

theorem wordRatioMax_perm (k : String) (w1 w2 : List String) (hp : w1.Perm w2) :
    wordRatioMax k w1 = wordRatioMax k w2 := by
  unfold wordRatioMax
  haveI : LeftCommutative fun (w : String) (m : ℚ) => max ((smRatio (pyUpper k) w).toRat) m :=
    ⟨fun a b c => max_left_comm _ _ _⟩
  exact hp.foldr_eq 0

theorem semFuzzy_perm (keys : List String) (w1 w2 : List String) (hp : w1.Perm w2) :
    semFuzzy keys w1 = semFuzzy keys w2 := by
  unfold semFuzzy
  have hq : ∀ kk, wordRatioMax kk w1 = wordRatioMax kk w2 := fun kk =>
    wordRatioMax_perm kk w1 w2 hp
  simp only [hq]

theorem fuzzyTier_perm (keys : List String) (w1 w2 : List String) (hp : w1.Perm w2) :
    fuzzyTier keys w1 = fuzzyTier keys w2 := by
  obtain ⟨h11, h12⟩ := fuzzyBest_sem keys w1
  obtain ⟨h21, h22⟩ := fuzzyBest_sem keys w2
  have hsem := semFuzzy_perm keys w1 w2 hp
  have h1 : (fuzzyBest keys w1).1 = (fuzzyBest keys w2).1 := by
    rw [h11, h21, hsem]
  have e : (fuzzyBest keys w1).2.toRat = (fuzzyBest keys w2).2.toRat := by
    rw [h12, h22, hsem]
  have hle : scoreLe score08 (fuzzyBest keys w1).2 = scoreLe score08 (fuzzyBest keys w2).2 := by
    rw [Bool.eq_iff_iff, scoreLe_iff, scoreLe_iff, e]
  show (if scoreLe score08 (fuzzyBest keys w1).2 = true then (fuzzyBest keys w1).1 else none) =
    (if scoreLe score08 (fuzzyBest keys w2).2 = true then (fuzzyBest keys w2).1 else none)
  rw [h1, hle]

theorem contains_perm (w1 w2 : List String) (hp : w1.Perm w2) (x : String) :
    w1.contains x = w2.contains x := by
  rw [Bool.eq_iff_iff]
  constructor <;> intro h
  · exact List.elem_iff.mpr (hp.mem_iff.mp (List.elem_iff.mp h))
  · exact List.elem_iff.mpr (hp.mem_iff.mpr (List.elem_iff.mp h))

theorem wordTier_perm (keys : List String) (w1 w2 : List String) (hp : w1.Perm w2) :
    wordTier keys w1 = wordTier keys w2 := by
  unfold wordTier
  have hfun : (fun w => w1.contains w) = (fun w => w2.contains w) :=
    funext (contains_perm w1 w2 hp)
  simp only [hfun]

theorem findBaseCollecteNameWords_perm (keys : List String) (provider : String)
    (w1 w2 : List String) (hp : w1.Perm w2) :
    findBaseCollecteNameWords keys provider w1 = findBaseCollecteNameWords keys provider w2 := by
  unfold findBaseCollecteNameWords
  rw [wordTier_perm keys w1 w2 hp, fuzzyTier_perm keys w1 w2 hp]

/-- C9: resolution is deterministic — its outcome (the site id and collector
key pair, or the failure) is a pure function of the catalogs and the inputs.
The one internal source of order-dependence in the source, the arbitrary
iteration order of the provider token `set` consumed by the word and fuzzy
tiers, does not affect the outcome: any two enumerations of the tokens
(permutations of each other) yield identical results, so two invocations with
identical inputs return identical outcomes. -/
theorem resolution_deterministic (cat : Catalog) (entreprise provider address : String)
    (w1 w2 : List String) (hp : w1.Perm w2) :
    resolveEntities cat entreprise provider address w1 =
      resolveEntities cat entreprise provider address w2 := by
  unfold resolveEntities
  rw [findBaseCollecteNameWords_perm cat.collecteKeys provider w1 w2 hp]

/-- C9 (witness): the two enumeration orders of the token set of provider
"SUEZ X" resolve identically on a concrete catalog. -/
theorem resolution_deterministic_witness :
    resolveEntities ⟨[⟨"88", "abcd", "1 z", ""⟩], ["SUEZ"]⟩ "abcd" "SUEZ X" ""
        ["SUEZ", "X"] =
      resolveEntities ⟨[⟨"88", "abcd", "1 z", ""⟩], ["SUEZ"]⟩ "abcd" "SUEZ X" ""
        ["X", "SUEZ"] :=
  resolution_deterministic ⟨[⟨"88", "abcd", "1 z", ""⟩], ["SUEZ"]⟩ "abcd" "SUEZ X" ""
    ["SUEZ", "X"] ["X", "SUEZ"] (List.Perm.swap "X" "SUEZ" [])

example : normalizeAddress "34 Boulevard des Italiens" = "34 bddes italiens" := by decide

example : extractPostalCode "1 rue X, 71100 Chalon" = some "71100" := by decide

example : extractPostalCode "123456 rue X" = none := by decide

example : isSimilarRestaurantName "mac do chalon" "mcdonalds chalon sur saone" = true := by
  decide

example : isSimilarRestaurantName "xyz" "abcd" = false := by decide
